import Mathlib

/-!
Shallow embedding of the cube-blast rules engine.

Source files embedded here:
- `src/app/_components/game/utils/block-utils.ts` (`calculateBlockDimensions`)
- `src/app/_components/game/hooks/useKeyboardControls.ts` (`canPlaceBlockAt`,
  `checkGameOver`, `getNextGameState`, `createInitialGameState`)
- the blocks module (`possibleBlocks`, `rotateBlock`, `getRandomBlock`)

JS `boolean[][][]` values are modelled as nested lists of `Bool`; a JS read
`a[i]?.[j]?.[k]` (undefined is falsy) is `getCell`.  Grid coordinates coming
from the caller are JS numbers and may be negative, so placement origins are
`Int`.  Randomness is made explicit: the random source of `getRandomBlock` is
a rational in `[0,1)` plus a rotation triple, and `getNextGameState` takes the
stream of freshly generated blocks as a function argument.
-/

namespace CubeBlast

/-- Nested JS array `boolean[][][]`, indexed outermost-to-innermost as
`[z][y][x]` (the repository's convention). -/
abbrev A3 : Type := List (List (List Bool))

/-- JS read `a[i]?.[j]?.[k]`: any out-of-range access yields `undefined`,
which is falsy, hence `false` here. -/
def getCell (a : A3) (i j k : Nat) : Bool :=
  ((a.getD i []).getD j []).getD k false

/-- Record `BlockDimensions` from `types/game.ts`. -/
structure BlockDimensions where
  xWidth : Nat
  yHeight : Nat
  zDepth : Nat
deriving DecidableEq, Repr

/-- Function `calculateBlockDimensions` from `block-utils.ts`:
`zDepth = block.length`, `yHeight = block[0]?.length ?? 0`,
`xWidth = block[0]?.[0]?.length ?? 0`. -/
def calculateBlockDimensions (block : A3) : BlockDimensions :=
  { xWidth := ((block.getD 0 []).getD 0 []).length
    yHeight := (block.getD 0 []).length
    zDepth := block.length }

/-- Constant `COORDINATE_SYSTEM.GRID_SIZE` (constants/coordinates). -/
def GRID_SIZE : Nat := 8

/-- The bound checks `0 <= c && c < 8` done on absolute board coordinates. -/
def inBoundsI (c : Int) : Bool :=
  decide (0 ≤ c) && decide (c < (GRID_SIZE : Int))

/-- Function `canPlaceBlockAt(board, block, x, y, z)` from `useKeyboardControls.ts`.
The JS triple loop with early `return false` is the `all` over the same
ranges; the occupancy read `board[boardZ] && board[boardZ][boardY] &&
board[boardZ][boardY][boardX]` is `getCell board`. -/
def canPlaceBlockAt (board block : A3) (x y z : Int) : Bool :=
  let dims := calculateBlockDimensions block
  (List.range dims.zDepth).all fun pz =>
    (List.range dims.yHeight).all fun py =>
      (List.range dims.xWidth).all fun px =>
        if getCell block pz py px then
          let boardX : Int := x + px
          let boardY : Int := y + py
          let boardZ : Int := z + pz
          inBoundsI boardX && inBoundsI boardY && inBoundsI boardZ &&
            !(getCell board boardZ.toNat boardY.toNat boardX.toNat)
        else true

/-- Function `checkGameOver(board, nextBlocks)` from `useKeyboardControls.ts`:
empty slot list of available blocks means not over; otherwise over iff no
available block fits at any origin of the 8x8x8 grid. -/
def checkGameOver (board : A3) (nextBlocks : List (Option A3)) : Bool :=
  let availableBlocks := nextBlocks.filterMap id
  if availableBlocks.isEmpty then false
  else
    !(availableBlocks.any fun block =>
      (List.range GRID_SIZE).any fun z =>
        (List.range GRID_SIZE).any fun y =>
          (List.range GRID_SIZE).any fun x =>
            canPlaceBlockAt board block (x : Int) (y : Int) (z : Int))

/-- In-place store `a[i][j][k] = v`, guarded in JS by
`a[i] && a[i][j]`: if `i` or `j` is out of range nothing happens
(`List.set` is likewise the identity out of range). -/
def setCell (a : A3) (i j k : Nat) (v : Bool) : A3 :=
  a.set i ((a.getD i []).set j (((a.getD i []).getD j []).set k v))

/-- The piece-local coordinates visited by the placement loops, in loop
order: z outermost, then y, then x. -/
def pieceCells (block : A3) : List (Nat × Nat × Nat) :=
  let dims := calculateBlockDimensions block
  (List.range dims.zDepth).flatMap fun pz =>
    (List.range dims.yHeight).flatMap fun py =>
      (List.range dims.xWidth).map fun px => (pz, py, px)

/-- The commit loop of `getNextGameState`: every occupied piece cell whose
absolute coordinate is in bounds is written `true` into the board copy. -/
def placeLoop (block : A3) (x y z : Int) (board : A3) : A3 :=
  (pieceCells block).foldl
    (fun b c =>
      if getCell block c.1 c.2.1 c.2.2 then
        let boardX : Int := x + c.2.2
        let boardY : Int := y + c.2.1
        let boardZ : Int := z + c.1
        if inBoundsI boardX && inBoundsI boardY && inBoundsI boardZ then
          setCell b boardZ.toNat boardY.toNat boardX.toNat true
        else b
      else b)
    board

/-- An X-line is complete at `(y, z)` when all 8 cells along x are occupied. -/
def lineX (b : A3) (y z : Nat) : Bool :=
  (List.range GRID_SIZE).all fun x => getCell b z y x

/-- A Y-line is complete at `(x, z)` when all 8 cells along y are occupied. -/
def lineY (b : A3) (x z : Nat) : Bool :=
  (List.range GRID_SIZE).all fun y => getCell b z y x

/-- A Z-line is complete at `(x, y)` when all 8 cells along z are occupied. -/
def lineZ (b : A3) (x y : Nat) : Bool :=
  (List.range GRID_SIZE).all fun z => getCell b z y x

/-- The `(x, y, z)` keys added to `cubesToClear` by the X-axis scan. -/
def clearListX (b : A3) : List (Nat × Nat × Nat) :=
  (List.range GRID_SIZE).flatMap fun y =>
    (List.range GRID_SIZE).flatMap fun z =>
      if lineX b y z then (List.range GRID_SIZE).map fun x => (x, y, z) else []

/-- The keys added by the Y-axis scan. -/
def clearListY (b : A3) : List (Nat × Nat × Nat) :=
  (List.range GRID_SIZE).flatMap fun x =>
    (List.range GRID_SIZE).flatMap fun z =>
      if lineY b x z then (List.range GRID_SIZE).map fun y => (x, y, z) else []

/-- The keys added by the Z-axis scan. -/
def clearListZ (b : A3) : List (Nat × Nat × Nat) :=
  (List.range GRID_SIZE).flatMap fun x =>
    (List.range GRID_SIZE).flatMap fun y =>
      if lineZ b x y then (List.range GRID_SIZE).map fun z => (x, y, z) else []

/-- All keys added to the `cubesToClear` set, in insertion order; the JS
`Set` keeps the first occurrence of each, i.e. `List.dedup`. -/
def fullClearList (b : A3) : List (Nat × Nat × Nat) :=
  clearListX b ++ clearListY b ++ clearListZ b

/-- Record `GameState` from `types/game.ts`.  Its `activeBlock` is `number | null`
(`findIndex` can produce `-1`, so the number is an `Int`); `score` is an
`Int`. -/
structure GameState where
  board : A3
  nextBlocks : List (Option A3)
  activeBlock : Option Int
  score : Int
  gameOver : Bool
deriving DecidableEq, Repr

/-- JS read `slots[i]` for a possibly negative or overlarge index, with both
`undefined` and `null` collapsing to `none` (`if (!block)`). -/
def getSlot (slots : List (Option A3)) (i : Int) : Option A3 :=
  if 0 ≤ i then slots.getD i.toNat none else none

/-- Model of `Array.prototype.findIndex(block => block !== null)`: index of the first
non-null slot, `-1` when there is none. -/
def jsFindIndex : List (Option A3) → Int
  | [] => -1
  | some _ :: _ => 0
  | none :: t => if jsFindIndex t = -1 then -1 else jsFindIndex t + 1

/-- The accepted-placement tail of `getNextGameState` (everything after the
`canPlaceBlockAt` check succeeded): commit, scan and clear lines, consume the
slot, refill when all slots are empty, pick the new active slot, add the
score delta, recompute game over.  `gen n` is the n-th fresh block produced
by `getRandomBlock` during the refill. -/
def acceptedState (gen : Nat → A3) (s : GameState) (x y z : Int) (i : Int)
    (block : A3) : GameState :=
  let placed := placeLoop block x y z s.board
  let cubes := (fullClearList placed).dedup
  let cleared := cubes.foldl (fun bb c => setCell bb c.2.2 c.2.1 c.1 false) placed
  let slots1 := s.nextBlocks.set i.toNat none
  let slots2 := if slots1.all (fun b => b.isNone) then
      [some (gen 0), some (gen 1), some (gen 2)] else slots1
  { board := cleared
    nextBlocks := slots2
    activeBlock := some (jsFindIndex slots2)
    score := s.score + (cubes.length : Int) * 100
    gameOver := checkGameOver cleared slots2 }

/-- Function `getNextGameState` from `useKeyboardControls.ts`.  The JS body first
copies the board; the copy equals `s.board`, so validation and commit are
expressed directly on `s.board` here. -/
def getNextGameState (gen : Nat → A3) (s : GameState) (x y z : Int) :
    GameState :=
  if s.gameOver then s
  else
    match s.activeBlock with
    | none => s
    | some i =>
      match getSlot s.nextBlocks i with
      | none => s
      | some block =>
        if canPlaceBlockAt s.board block x y z then
          acceptedState gen s x y z i block
        else s

/-- The always-false 8x8x8 board built by `createInitialGameState`. -/
def emptyBoard : A3 :=
  List.replicate GRID_SIZE (List.replicate GRID_SIZE
    (List.replicate GRID_SIZE false))

/-- Function `createInitialGameState` from `useKeyboardControls.ts`. -/
def createInitialGameState (gen : Nat → A3) : GameState :=
  { board := emptyBoard
    nextBlocks := [some (gen 0), some (gen 1), some (gen 2)]
    activeBlock := some 0
    score := 0
    gameOver := false }

/-- The 2x3x2 rectangular prism of the catalog. -/
def prismBlock : A3 :=
  [ [ [true, true, true], [true, true, true] ],
    [ [true, true, true], [true, true, true] ] ]

/-- The 1x8x1 bar of the catalog. -/
def barBlock : A3 :=
  [ [ [true, true, true, true, true, true, true, true] ] ]

/-- The L block of the catalog. -/
def lBlock : A3 :=
  [ [ [true, false, false], [true, false, false], [true, true, true] ] ]

/-- The T block of the catalog. -/
def tBlock : A3 :=
  [ [ [true, true, true], [false, true, false], [false, true, false] ] ]

/-- Catalog `possibleBlocks` from the blocks module. -/
def possibleBlocks : List A3 := [prismBlock, barBlock, lBlock, tBlock]

/-- The `Rotation` record `{x, y, z}` of quarter-turn counts. -/
structure Rotation where
  x : Nat
  y : Nat
  z : Nat
deriving DecidableEq, Repr

/-- One pass of the X-axis loop of `rotateBlock`:
`newBlock[z][x][y] = block[height-1-y]?.[x]?.[z] ?? false` over the ranges
`z < depth`, `x < width`, `y < height`, where `height`, `width`, `depth` are
the outer, middle and inner lengths. -/
def rotXStep (b : A3) : A3 :=
  let height := b.length
  let width := (b.getD 0 []).length
  let depth := ((b.getD 0 []).getD 0 []).length
  (List.range depth).map fun z =>
    (List.range width).map fun x =>
      (List.range height).map fun y => getCell b (height - 1 - y) x z

/-- One pass of the Y-axis loop of `rotateBlock`:
`newBlock[y][z][x] = block[y]?.[width-1-x]?.[z] ?? false`. -/
def rotYStep (b : A3) : A3 :=
  let height := b.length
  let width := (b.getD 0 []).length
  let depth := ((b.getD 0 []).getD 0 []).length
  (List.range height).map fun y =>
    (List.range depth).map fun z =>
      (List.range width).map fun x => getCell b y (width - 1 - x) z

/-- One pass of the Z-axis loop of `rotateBlock`:
`newBlock[y][x][z] = block[y]?.[width-1-x]?.[depth-1-z] ?? false` — note the
output ranges are `y < height`, `x < width`, `z < depth`, the same extents as
the input. -/
def rotZStep (b : A3) : A3 :=
  let height := b.length
  let width := (b.getD 0 []).length
  let depth := ((b.getD 0 []).getD 0 []).length
  (List.range height).map fun y =>
    (List.range width).map fun x =>
      (List.range depth).map fun z =>
        getCell b y (width - 1 - x) (depth - 1 - z)

/-- Function `rotateBlock(block)(rotation)`: `x % 4` passes of the X loop, then
`y % 4` of the Y loop, then `z % 4` of the Z loop. -/
def rotateBlock (b : A3) (rot : Rotation) : A3 :=
  rotZStep^[rot.z % 4] (rotYStep^[rot.y % 4] (rotXStep^[rot.x % 4] b))

/-- JS read `l[i]` for an arbitrary integer index. -/
def jsIndex {α : Type} (l : List α) (i : Int) : Option α :=
  if 0 ≤ i then l.get? i.toNat else none

/-- Function `getRandomBlock` with the random source explicit: `r` models the
`Math.random()` call used for shape selection and `rot` the random rotation
triple; `none` models the `throw new Error("No block found")` branch. -/
def getRandomBlock (r : ℚ) (rot : Rotation) : Option A3 :=
  match jsIndex possibleBlocks (Int.floor (r * (possibleBlocks.length : ℚ))) with
  | none => none
  | some block => some (rotateBlock block rot)

/-- Number of occupied cells of a block. -/
def cellCount (b : A3) : Nat :=
  (b.map fun layer => (layer.map fun row => row.count true).sum).sum

/-- The board well-formedness invariant of the data model: exactly 8 layers
of 8 rows of 8 cells. -/
def isBoard8 (b : A3) : Prop :=
  b.length = GRID_SIZE ∧
    (∀ i < GRID_SIZE, (b.getD i []).length = GRID_SIZE) ∧
    ∀ i < GRID_SIZE, ∀ j < GRID_SIZE, ((b.getD i []).getD j []).length = GRID_SIZE

instance (b : A3) : Decidable (isBoard8 b) := by
  unfold isBoard8; infer_instance

/-- A block is rectangular: every layer has `yHeight` rows and every row
`xWidth` cells (true of all catalog shapes). -/
def isCuboid (block : A3) : Prop :=
  ∀ i < block.length,
    (block.getD i []).length = (calculateBlockDimensions block).yHeight ∧
    ∀ j < (block.getD i []).length,
      ((block.getD i []).getD j []).length = (calculateBlockDimensions block).xWidth

instance (b : A3) : Decidable (isCuboid b) := by
  unfold isCuboid; infer_instance

/-- The deduplicated union of the cells of all complete X-, Y- and Z-lines,
as the specification describes it. -/
def completeLineCells (b : A3) : Finset (Nat × Nat × Nat) :=
  ((Finset.range GRID_SIZE) ×ˢ (Finset.range GRID_SIZE) ×ˢ
      (Finset.range GRID_SIZE)).filter
    fun p => lineX b p.2.1 p.2.2 = true ∨ lineY b p.1 p.2.2 = true ∨
      lineZ b p.1 p.2.1 = true

/-! ### Concrete states used by the witnesses -/

/-- A constant generator used wherever a refill stream is needed. -/
def genBar : Nat → A3 := fun _ => barBlock

/-- Scenario A of the specification: empty board, the 8-long bar in slot 0. -/
def stateA : GameState :=
  { board := emptyBoard, nextBlocks := [some barBlock, none, none],
    activeBlock := some 0, score := 0, gameOver := false }

/-- A finished game, used to witness the no-op transition. -/
def overState : GameState :=
  { board := emptyBoard, nextBlocks := [some barBlock, none, none],
    activeBlock := some 0, score := 700, gameOver := true }

/-- A state with pieces left in slots 0 and 2, used to witness slot
consumption without refill. -/
def stateTwoSlots : GameState :=
  { board := emptyBoard, nextBlocks := [some tBlock, none, some lBlock],
    activeBlock := some 0, score := 0, gameOver := false }

/-- A ragged piece: its first row is shorter than its second, so the cell
`(y=1, x=1)` lies outside the bounding box scanned by `canPlaceBlockAt`. -/
def raggedBlock : A3 := [[[true], [true, true]]]

/-- A board occupied exactly at `(x=1, y=1, z=0)`. -/
def cexBoard : A3 := setCell emptyBoard 0 1 1 true

/-! ### Helper lemmas about list reads and writes -/

theorem getD_of_le {α : Type} (l : List α) (n : Nat) (d : α) (h : l.length ≤ n) :
    l.getD n d = d := by
  simp [List.getD_eq_getElem?_getD, List.getElem?_eq_none h]

theorem getD_set {α : Type} (l : List α) (i j : Nat) (a d : α) :
    (l.set i a).getD j d = if i = j ∧ i < l.length then a else l.getD j d := by
  by_cases hij : i = j
  · subst hij
    by_cases hl : i < l.length
    · simp [List.getD_eq_getElem?_getD, List.getElem?_set_self hl, hl]
    · rw [List.set_eq_of_length_le (Nat.le_of_not_lt hl)]
      simp [hl]
  · simp [List.getD_eq_getElem?_getD, List.getElem?_set_ne hij, hij]

theorem getCell_setCell_self (a : A3) (i j k : Nat) (v : Bool)
    (hi : i < a.length) (hj : j < (a.getD i []).length)
    (hk : k < ((a.getD i []).getD j []).length) :
    getCell (setCell a i j k v) i j k = v := by
  unfold getCell setCell
  rw [getD_set, if_pos ⟨rfl, hi⟩, getD_set, if_pos ⟨rfl, hj⟩, getD_set,
    if_pos ⟨rfl, hk⟩]

theorem getCell_setCell_ne (a : A3) (i j k i2 j2 k2 : Nat) (v : Bool)
    (h : ¬(i = i2 ∧ j = j2 ∧ k = k2)) :
    getCell (setCell a i j k v) i2 j2 k2 = getCell a i2 j2 k2 := by
  unfold getCell setCell
  rw [getD_set]
  by_cases hi : i = i2 ∧ i < a.length
  · obtain ⟨hi1, hilt⟩ := hi
    subst hi1
    rw [if_pos ⟨rfl, hilt⟩, getD_set]
    by_cases hj : j = j2 ∧ j < (a.getD i []).length
    · obtain ⟨hj1, hjlt⟩ := hj
      subst hj1
      rw [if_pos ⟨rfl, hjlt⟩, getD_set]
      have hk2 : ¬(k = k2 ∧ k < ((a.getD i []).getD j []).length) :=
        fun hh => h ⟨rfl, rfl, hh.1⟩
      rw [if_neg hk2]
    · rw [if_neg hj]
  · rw [if_neg hi]

theorem length_setCell (a : A3) (i j k : Nat) (v : Bool) :
    (setCell a i j k v).length = a.length := by
  simp [setCell]

theorem isBoard8_setCell (a : A3) (i j k : Nat) (v : Bool) (h : isBoard8 a) :
    isBoard8 (setCell a i j k v) := by
  obtain ⟨h1, h2, h3⟩ := h
  unfold setCell
  refine ⟨by simp [h1], ?_, ?_⟩
  · intro i2 hi2
    rw [getD_set]
    by_cases hc : i = i2 ∧ i < a.length
    · obtain ⟨he, hlt⟩ := hc
      subst he
      rw [if_pos ⟨rfl, hlt⟩, List.length_set]
      exact h2 i hi2
    · rw [if_neg hc]
      exact h2 i2 hi2
  · intro i2 hi2 j2 hj2
    rw [getD_set]
    by_cases hc : i = i2 ∧ i < a.length
    · obtain ⟨he, hlt⟩ := hc
      subst he
      rw [if_pos ⟨rfl, hlt⟩, getD_set]
      by_cases hc2 : j = j2 ∧ j < (a.getD i []).length
      · obtain ⟨he2, hlt2⟩ := hc2
        subst he2
        rw [if_pos ⟨rfl, hlt2⟩, List.length_set]
        exact h3 i hi2 j hj2
      · rw [if_neg hc2]
        exact h3 i hi2 j2 hj2
    · rw [if_neg hc]
      exact h3 i2 hi2 j2 hj2

theorem isBoard8_foldl {γ : Type} (f : A3 → γ → A3)
    (hf : ∀ b c, isBoard8 b → isBoard8 (f b c)) :
    ∀ (l : List γ) (b : A3), isBoard8 b → isBoard8 (l.foldl f b) := by
  intro l
  induction l with
  | nil => intro b hb; simpa using hb
  | cons c t ih =>
    intro b hb
    rw [List.foldl_cons]
    exact ih _ (hf b c hb)

theorem isBoard8_placeLoop (block : A3) (x y z : Int) (b : A3)
    (hb : isBoard8 b) : isBoard8 (placeLoop block x y z b) := by
  unfold placeLoop
  refine isBoard8_foldl _ ?_ _ _ hb
  intro b2 c h2
  dsimp only
  split
  · split
    · exact isBoard8_setCell _ _ _ _ _ h2
    · exact h2
  · exact h2

/-! ### The clearing pass -/

theorem getCell_clearFoldl (l : List (Nat × Nat × Nat)) (b : A3)
    (hb : isBoard8 b) (cx cy cz : Nat) (hcx : cx < GRID_SIZE)
    (hcy : cy < GRID_SIZE) (hcz : cz < GRID_SIZE) :
    getCell (l.foldl (fun bb c => setCell bb c.2.2 c.2.1 c.1 false) b) cz cy cx
      = (!decide ((cx, cy, cz) ∈ l) && getCell b cz cy cx) := by
  induction l generalizing b with
  | nil => simp
  | cons c t ih =>
    rw [List.foldl_cons, ih _ (isBoard8_setCell _ _ _ _ _ hb)]
    by_cases hc : c = (cx, cy, cz)
    · subst hc
      have h1 : cz < b.length := by rw [hb.1]; exact hcz
      have h2 : cy < (b.getD cz []).length := by rw [hb.2.1 cz hcz]; exact hcy
      have h3 : cx < ((b.getD cz []).getD cy []).length := by
        rw [hb.2.2 cz hcz cy hcy]; exact hcx
      rw [getCell_setCell_self _ _ _ _ _ h1 h2 h3]
      simp
    · rw [getCell_setCell_ne]
      · simp only [List.mem_cons]
        have : ¬((cx, cy, cz) = c) := fun hh => hc hh.symm
        simp [this]
      · intro hh
        exact hc (by
          obtain ⟨ha, hb2, hc2⟩ := hh
          obtain ⟨c1, c2, c3⟩ := c
          simp_all)

theorem mem_clearListX (b : A3) (p : Nat × Nat × Nat) :
    p ∈ clearListX b ↔
      p.1 < GRID_SIZE ∧ p.2.1 < GRID_SIZE ∧ p.2.2 < GRID_SIZE ∧
        lineX b p.2.1 p.2.2 = true := by
  obtain ⟨px, py, pz⟩ := p
  simp only [clearListX, List.mem_flatMap, List.mem_range]
  constructor
  · rintro ⟨y, hy, zz, hz, hmem⟩
    by_cases hl : lineX b y zz
    · rw [if_pos hl] at hmem
      simp only [List.mem_map, List.mem_range] at hmem
      obtain ⟨x, hx, he⟩ := hmem
      obtain ⟨rfl, rfl, rfl⟩ : x = px ∧ y = py ∧ zz = pz := by
        simpa [Prod.ext_iff] using he
      exact ⟨hx, hy, hz, hl⟩
    · rw [if_neg hl] at hmem
      simp at hmem
  · rintro ⟨hx, hy, hz, hl⟩
    refine ⟨py, hy, pz, hz, ?_⟩
    rw [if_pos hl]
    simp only [List.mem_map, List.mem_range]
    exact ⟨px, hx, rfl⟩

theorem mem_clearListY (b : A3) (p : Nat × Nat × Nat) :
    p ∈ clearListY b ↔
      p.1 < GRID_SIZE ∧ p.2.1 < GRID_SIZE ∧ p.2.2 < GRID_SIZE ∧
        lineY b p.1 p.2.2 = true := by
  obtain ⟨px, py, pz⟩ := p
  simp only [clearListY, List.mem_flatMap, List.mem_range]
  constructor
  · rintro ⟨xx, hx, zz, hz, hmem⟩
    by_cases hl : lineY b xx zz
    · rw [if_pos hl] at hmem
      simp only [List.mem_map, List.mem_range] at hmem
      obtain ⟨y, hy, he⟩ := hmem
      obtain ⟨rfl, rfl, rfl⟩ : xx = px ∧ y = py ∧ zz = pz := by
        simpa [Prod.ext_iff] using he
      exact ⟨hx, hy, hz, hl⟩
    · rw [if_neg hl] at hmem
      simp at hmem
  · rintro ⟨hx, hy, hz, hl⟩
    refine ⟨px, hx, pz, hz, ?_⟩
    rw [if_pos hl]
    simp only [List.mem_map, List.mem_range]
    exact ⟨py, hy, rfl⟩

theorem mem_clearListZ (b : A3) (p : Nat × Nat × Nat) :
    p ∈ clearListZ b ↔
      p.1 < GRID_SIZE ∧ p.2.1 < GRID_SIZE ∧ p.2.2 < GRID_SIZE ∧
        lineZ b p.1 p.2.1 = true := by
  obtain ⟨px, py, pz⟩ := p
  simp only [clearListZ, List.mem_flatMap, List.mem_range]
  constructor
  · rintro ⟨xx, hx, yy, hy, hmem⟩
    by_cases hl : lineZ b xx yy
    · rw [if_pos hl] at hmem
      simp only [List.mem_map, List.mem_range] at hmem
      obtain ⟨zz, hz, he⟩ := hmem
      obtain ⟨rfl, rfl, rfl⟩ : xx = px ∧ yy = py ∧ zz = pz := by
        simpa [Prod.ext_iff] using he
      exact ⟨hx, hy, hz, hl⟩
    · rw [if_neg hl] at hmem
      simp at hmem
  · rintro ⟨hx, hy, hz, hl⟩
    refine ⟨px, hx, py, hy, ?_⟩
    rw [if_pos hl]
    simp only [List.mem_map, List.mem_range]
    exact ⟨pz, hz, rfl⟩

theorem mem_fullClearList (b : A3) (p : Nat × Nat × Nat) :
    p ∈ fullClearList b ↔
      p.1 < GRID_SIZE ∧ p.2.1 < GRID_SIZE ∧ p.2.2 < GRID_SIZE ∧
        (lineX b p.2.1 p.2.2 = true ∨ lineY b p.1 p.2.2 = true ∨
          lineZ b p.1 p.2.1 = true) := by
  unfold fullClearList
  rw [List.mem_append, List.mem_append, mem_clearListX, mem_clearListY,
    mem_clearListZ]
  tauto

theorem mem_completeLineCells (b : A3) (p : Nat × Nat × Nat) :
    p ∈ completeLineCells b ↔
      p.1 < GRID_SIZE ∧ p.2.1 < GRID_SIZE ∧ p.2.2 < GRID_SIZE ∧
        (lineX b p.2.1 p.2.2 = true ∨ lineY b p.1 p.2.2 = true ∨
          lineZ b p.1 p.2.1 = true) := by
  unfold completeLineCells
  rw [Finset.mem_filter]
  simp only [Finset.mem_product, Finset.mem_range]
  tauto

theorem toFinset_fullClearList (b : A3) :
    (fullClearList b).toFinset = completeLineCells b := by
  ext p
  rw [List.mem_toFinset, mem_fullClearList, mem_completeLineCells]

/-! ### The transition function: branch lemmas -/

theorem getNextGameState_rejected (gen : Nat → A3) (s : GameState)
    (x y z : Int)
    (h : s.gameOver = true ∨ s.activeBlock = none ∨
      (∃ i, s.activeBlock = some i ∧ getSlot s.nextBlocks i = none) ∨
      (∃ i block, s.activeBlock = some i ∧
        getSlot s.nextBlocks i = some block ∧
        canPlaceBlockAt s.board block x y z = false)) :
    getNextGameState gen s x y z = s := by
  unfold getNextGameState
  rcases h with h | h | ⟨i, hi, hs⟩ | ⟨i, block, hi, hs, hc⟩
  · simp [h]
  · simp [h]
  · simp [hi, hs]
  · simp [hi, hs, hc]

theorem getNextGameState_accepted (gen : Nat → A3) (s : GameState)
    (x y z : Int) (i : Int) (block : A3) (hgo : s.gameOver = false)
    (hact : s.activeBlock = some i)
    (hslot : getSlot s.nextBlocks i = some block)
    (hcan : canPlaceBlockAt s.board block x y z = true) :
    getNextGameState gen s x y z = acceptedState gen s x y z i block := by
  unfold getNextGameState
  simp [hgo, hact, hslot, hcan]

theorem getSlot_lt_length (slots : List (Option A3)) (i : Int) (block : A3)
    (h : getSlot slots i = some block) : 0 ≤ i ∧ i.toNat < slots.length := by
  unfold getSlot at h
  by_cases hi : 0 ≤ i
  · refine ⟨hi, ?_⟩
    rw [if_pos hi] at h
    by_cases hl : i.toNat < slots.length
    · exact hl
    · rw [getD_of_le _ _ _ (Nat.le_of_not_lt hl)] at h
      exact absurd h (by simp)
  · rw [if_neg hi] at h
    exact absurd h (by simp)

theorem jsFindIndex_spec (l : List (Option A3))
    (h : (l.all fun b => b.isNone) = false) :
    ∃ n : Nat, jsFindIndex l = (n : Int) ∧ (l.getD n none).isSome = true ∧
      ∀ k < n, l.getD k none = none := by
  induction l with
  | nil => simp at h
  | cons hd t ih =>
    cases hd with
    | some b =>
      refine ⟨0, rfl, by simp, ?_⟩
      intro k hk
      omega
    | none =>
      have ht : (t.all fun b => b.isNone) = false := by simpa using h
      obtain ⟨n, h1, h2, h3⟩ := ih ht
      refine ⟨n + 1, ?_, ?_, ?_⟩
      · show (if jsFindIndex t = -1 then -1 else jsFindIndex t + 1) = ((n : Nat) + 1 : Int)
        rw [h1, if_neg (by omega)]
      · simpa using h2
      · intro k hk
        cases k with
        | zero => rfl
        | succ m =>
          have : m < n := by omega
          simpa using h3 m this

/-! ### Score shape lemmas -/

theorem score_delta (gen : Nat → A3) (s : GameState) (x y z : Int) :
    ∃ k : Nat, (getNextGameState gen s x y z).score = s.score + 100 * (k : Int) := by
  by_cases hgo : s.gameOver
  · rw [getNextGameState_rejected gen s x y z (Or.inl hgo)]
    exact ⟨0, by simp⟩
  cases hact : s.activeBlock with
  | none =>
    rw [getNextGameState_rejected gen s x y z (Or.inr (Or.inl hact))]
    exact ⟨0, by simp⟩
  | some i =>
    cases hslot : getSlot s.nextBlocks i with
    | none =>
      rw [getNextGameState_rejected gen s x y z
        (Or.inr (Or.inr (Or.inl ⟨i, hact, hslot⟩)))]
      exact ⟨0, by simp⟩
    | some block =>
      by_cases hcan : canPlaceBlockAt s.board block x y z
      · rw [getNextGameState_accepted gen s x y z i block
          (Bool.not_eq_true _ ▸ hgo) hact hslot hcan]
        refine ⟨(fullClearList (placeLoop block x y z s.board)).dedup.length, ?_⟩
        show s.score + ((fullClearList (placeLoop block x y z s.board)).dedup.length : Int) * 100 = _
        ring
      · rw [getNextGameState_rejected gen s x y z
          (Or.inr (Or.inr (Or.inr ⟨i, block, hact, hslot,
            Bool.not_eq_true _ ▸ hcan⟩)))]
        exact ⟨0, by simp⟩

theorem score_le (gen : Nat → A3) (s : GameState) (x y z : Int) :
    s.score ≤ (getNextGameState gen s x y z).score := by
  obtain ⟨k, hk⟩ := score_delta gen s x y z
  rw [hk]
  have : (0 : Int) ≤ 100 * (k : Int) := by positivity
  omega

theorem score_multiple_foldl (gen : Nat → A3) (moves : List (Int × Int × Int))
    (st : GameState) (h : ∃ m : Nat, st.score = 100 * (m : Int)) :
    ∃ m : Nat,
      (moves.foldl (fun s mv => getNextGameState gen s mv.1 mv.2.1 mv.2.2)
        st).score = 100 * (m : Int) := by
  induction moves generalizing st with
  | nil => simpa using h
  | cons mv t ih =>
    rw [List.foldl_cons]
    refine ih _ ?_
    obtain ⟨m, hm⟩ := h
    obtain ⟨k, hk⟩ := score_delta gen st mv.1 mv.2.1 mv.2.2
    refine ⟨m + k, ?_⟩
    rw [hk, hm]
    push_cast
    ring

/-! ### Placement validation characterization -/

theorem getCell_true_lt (block : A3) (hc : isCuboid block) (pz py px : Nat)
    (h : getCell block pz py px = true) :
    pz < (calculateBlockDimensions block).zDepth ∧
    py < (calculateBlockDimensions block).yHeight ∧
    px < (calculateBlockDimensions block).xWidth := by
  have hz : pz < block.length := by
    by_contra hz
    unfold getCell at h
    rw [getD_of_le _ _ _ (Nat.le_of_not_lt hz)] at h
    simp at h
  obtain ⟨hrow, hcells⟩ := hc pz hz
  have hy : py < (block.getD pz []).length := by
    by_contra hy
    unfold getCell at h
    rw [getD_of_le _ _ _ (Nat.le_of_not_lt hy)] at h
    simp at h
  have hx : px < ((block.getD pz []).getD py []).length := by
    by_contra hx
    unfold getCell at h
    rw [getD_of_le _ _ _ (Nat.le_of_not_lt hx)] at h
    simp at h
  exact ⟨hz, hrow ▸ hy, (hcells py hy) ▸ hx⟩

/-! ### Field equations of the accepted transition -/

theorem acceptedState_board (gen : Nat → A3) (s : GameState) (x y z : Int)
    (i : Int) (block : A3) :
    (acceptedState gen s x y z i block).board =
      ((fullClearList (placeLoop block x y z s.board)).dedup).foldl
        (fun bb c => setCell bb c.2.2 c.2.1 c.1 false)
        (placeLoop block x y z s.board) := rfl

theorem acceptedState_score (gen : Nat → A3) (s : GameState) (x y z : Int)
    (i : Int) (block : A3) :
    (acceptedState gen s x y z i block).score =
      s.score +
        (((fullClearList (placeLoop block x y z s.board)).dedup.length : Int)) * 100 :=
  rfl

theorem acceptedState_nextBlocks (gen : Nat → A3) (s : GameState) (x y z : Int)
    (i : Int) (block : A3) :
    (acceptedState gen s x y z i block).nextBlocks =
      if (s.nextBlocks.set i.toNat none).all (fun b => b.isNone) then
        [some (gen 0), some (gen 1), some (gen 2)]
      else s.nextBlocks.set i.toNat none := rfl

theorem acceptedState_activeBlock (gen : Nat → A3) (s : GameState) (x y z : Int)
    (i : Int) (block : A3) :
    (acceptedState gen s x y z i block).activeBlock =
      some (jsFindIndex
        (if (s.nextBlocks.set i.toNat none).all (fun b => b.isNone) then
          [some (gen 0), some (gen 1), some (gen 2)]
        else s.nextBlocks.set i.toNat none)) := rfl

/-! ### Claims -/

/-- C1: after the active piece is committed to a copy of the board, the set
of cells to clear equals the deduplicated union of all complete X-, Y- and
Z-lines of the committed board; every cell of that set is reset to
unoccupied in one simultaneous pass (cells not in the set keep their
committed value); and the returned score is the input score plus 100 times
the number of distinct cells in the set, each intersection cell counted
exactly once. -/
theorem clear_resolution_correct (gen : Nat → A3) (s : GameState) (x y z : Int)
    (i : Int) (block : A3) (hb : isBoard8 s.board) (hgo : s.gameOver = false)
    (hact : s.activeBlock = some i)
    (hslot : getSlot s.nextBlocks i = some block)
    (hcan : canPlaceBlockAt s.board block x y z = true) :
    (fullClearList (placeLoop block x y z s.board)).toFinset
        = completeLineCells (placeLoop block x y z s.board) ∧
    (getNextGameState gen s x y z).score
        = s.score +
            100 * ((completeLineCells (placeLoop block x y z s.board)).card : Int) ∧
    (∀ cx cy cz : Nat, cx < GRID_SIZE → cy < GRID_SIZE → cz < GRID_SIZE →
      getCell (getNextGameState gen s x y z).board cz cy cx
        = (decide
            ((cx, cy, cz) ∉ completeLineCells (placeLoop block x y z s.board)) &&
            getCell (placeLoop block x y z s.board) cz cy cx)) := by
  rw [getNextGameState_accepted gen s x y z i block hgo hact hslot hcan]
  have hcard : (completeLineCells (placeLoop block x y z s.board)).card
      = (fullClearList (placeLoop block x y z s.board)).dedup.length := by
    rw [← toFinset_fullClearList, List.card_toFinset]
  refine ⟨toFinset_fullClearList _, ?_, ?_⟩
  · rw [acceptedState_score, hcard]
    ring
  · intro cx cy cz hcx hcy hcz
    rw [acceptedState_board,
      getCell_clearFoldl _ _ (isBoard8_placeLoop block x y z s.board hb)
        cx cy cz hcx hcy hcz]
    have hmem : ((cx, cy, cz) ∈ (fullClearList (placeLoop block x y z s.board)).dedup)
        ↔ ((cx, cy, cz) ∈ completeLineCells (placeLoop block x y z s.board)) := by
      rw [List.mem_dedup, ← List.mem_toFinset, toFinset_fullClearList]
    have hd : decide ((cx, cy, cz) ∈ (fullClearList (placeLoop block x y z s.board)).dedup)
        = decide ((cx, cy, cz) ∈ completeLineCells (placeLoop block x y z s.board)) :=
      decide_eq_decide.mpr hmem
    simp only [decide_not, hd]

/-- C1 witness: scenario A — placing the 1x8x1 bar at the origin of an empty
board completes the X-line at `y = 0, z = 0`; exactly those 8 cells clear
and the score becomes 800. -/
theorem clear_resolution_correct_witness :
    (fullClearList (placeLoop barBlock 0 0 0 stateA.board)).toFinset
        = completeLineCells (placeLoop barBlock 0 0 0 stateA.board) ∧
    (getNextGameState genBar stateA 0 0 0).score
        = stateA.score +
            100 * ((completeLineCells (placeLoop barBlock 0 0 0 stateA.board)).card : Int) ∧
    (∀ cx cy cz : Nat, cx < GRID_SIZE → cy < GRID_SIZE → cz < GRID_SIZE →
      getCell (getNextGameState genBar stateA 0 0 0).board cz cy cx
        = (decide
            ((cx, cy, cz) ∉ completeLineCells (placeLoop barBlock 0 0 0 stateA.board)) &&
            getCell (placeLoop barBlock 0 0 0 stateA.board) cz cy cx)) :=
  clear_resolution_correct genBar stateA 0 0 0 0 barBlock (by decide) rfl rfl
    (by decide) (by decide)

/-- C2: if the game is over, or there is no active slot, or the active slot
is empty, or validation fails at the requested origin, the transition
returns the input state unchanged. -/
theorem rejected_placement_noop (gen : Nat → A3) (s : GameState) (x y z : Int)
    (h : s.gameOver = true ∨ s.activeBlock = none ∨
      (∃ i, s.activeBlock = some i ∧ getSlot s.nextBlocks i = none) ∨
      (∃ i block, s.activeBlock = some i ∧
        getSlot s.nextBlocks i = some block ∧
        canPlaceBlockAt s.board block x y z = false)) :
    getNextGameState gen s x y z = s :=
  getNextGameState_rejected gen s x y z h

/-- C2 witness: a placement request on a finished game is a no-op. -/
theorem rejected_placement_noop_witness :
    getNextGameState genBar overState 3 4 5 = overState :=
  rejected_placement_noop genBar overState 3 4 5 (Or.inl rfl)

/-- C3 (amended): for rectangular pieces, `canPlaceBlockAt` returns true
iff every occupied piece-local cell lands on an in-bounds, unoccupied board
coordinate.  (For ragged pieces only the cells inside the bounding box given
by the first layer and first row are scanned; see the counterexample.) -/
theorem canPlaceBlockAt_iff (board block : A3) (x y z : Int)
    (hc : isCuboid block) :
    canPlaceBlockAt board block x y z = true ↔
      ∀ pz py px : Nat, getCell block pz py px = true →
        0 ≤ x + (px : Int) ∧ x + (px : Int) < 8 ∧
        0 ≤ y + (py : Int) ∧ y + (py : Int) < 8 ∧
        0 ≤ z + (pz : Int) ∧ z + (pz : Int) < 8 ∧
        getCell board (z + (pz : Int)).toNat (y + (py : Int)).toNat
          (x + (px : Int)).toNat = false := by
  unfold canPlaceBlockAt
  simp only [List.all_eq_true, List.mem_range]
  constructor
  · intro h pz py px hcell
    obtain ⟨h1, h2, h3⟩ := getCell_true_lt block hc pz py px hcell
    have hh := h pz h1 py h2 px h3
    rw [if_pos hcell] at hh
    simp only [inBoundsI, GRID_SIZE, Bool.and_eq_true, decide_eq_true_eq,
      Bool.not_eq_true'] at hh
    norm_num at hh ⊢
    tauto
  · intro h pz hpz py hpy px hpx
    by_cases hcell : getCell block pz py px = true
    · rw [if_pos hcell]
      have hh := h pz py px hcell
      simp only [inBoundsI, GRID_SIZE, Bool.and_eq_true, decide_eq_true_eq,
        Bool.not_eq_true']
      norm_num at hh ⊢
      tauto
    · rw [if_neg hcell]

/-- C3 witness: the L block placed at the origin of the empty board. -/
theorem canPlaceBlockAt_iff_witness :
    canPlaceBlockAt emptyBoard lBlock 0 0 0 = true ↔
      ∀ pz py px : Nat, getCell lBlock pz py px = true →
        0 ≤ (0 : Int) + (px : Int) ∧ (0 : Int) + (px : Int) < 8 ∧
        0 ≤ (0 : Int) + (py : Int) ∧ (0 : Int) + (py : Int) < 8 ∧
        0 ≤ (0 : Int) + (pz : Int) ∧ (0 : Int) + (pz : Int) < 8 ∧
        getCell emptyBoard ((0 : Int) + (pz : Int)).toNat
          ((0 : Int) + (py : Int)).toNat ((0 : Int) + (px : Int)).toNat = false :=
  canPlaceBlockAt_iff emptyBoard lBlock 0 0 0 (by decide)

/-- C3 counterexample: for the ragged piece `[[[true],[true,true]]]` the
claimed equivalence fails — `canPlaceBlockAt` accepts a placement although
the occupied cell `(pz,py,px) = (0,1,1)` lands on an occupied board cell. -/
theorem canPlaceBlockAt_ragged_cex :
    canPlaceBlockAt cexBoard raggedBlock 0 0 0 = true ∧
    getCell raggedBlock 0 1 1 = true ∧
    getCell cexBoard 0 1 1 = true ∧
    ¬ (canPlaceBlockAt cexBoard raggedBlock 0 0 0 = true ↔
      ∀ pz py px : Nat, getCell raggedBlock pz py px = true →
        0 ≤ (0 : Int) + (px : Int) ∧ (0 : Int) + (px : Int) < 8 ∧
        0 ≤ (0 : Int) + (py : Int) ∧ (0 : Int) + (py : Int) < 8 ∧
        0 ≤ (0 : Int) + (pz : Int) ∧ (0 : Int) + (pz : Int) < 8 ∧
        getCell cexBoard ((0 : Int) + (pz : Int)).toNat
          ((0 : Int) + (py : Int)).toNat ((0 : Int) + (px : Int)).toNat = false) := by
  refine ⟨by decide, by decide, by decide, ?_⟩
  intro hiff
  exact absurd ((hiff.mp (by decide)) 0 1 1 (by decide)) (by decide)

/-- C4: `checkGameOver` returns false when every slot is empty, and
otherwise returns false exactly when at least one available block fits at at
least one origin of the full 8x8x8 grid. -/
theorem checkGameOver_iff (board : A3) (slots : List (Option A3)) :
    checkGameOver board slots = false ↔
      (∀ b ∈ slots, b = none) ∨
      ∃ block, some block ∈ slots ∧ ∃ x y z : Nat,
        x < GRID_SIZE ∧ y < GRID_SIZE ∧ z < GRID_SIZE ∧
        canPlaceBlockAt board block (x : Int) (y : Int) (z : Int) = true := by
  unfold checkGameOver
  by_cases he : slots.filterMap id = []
  · rw [if_pos (by simp [he])]
    simp only [List.filterMap_eq_nil_iff, id] at he
    exact ⟨fun _ => Or.inl he, fun _ => rfl⟩
  · rw [if_neg (by simp [List.isEmpty_iff, he])]
    constructor
    · intro h
      right
      simp only [Bool.not_eq_false', List.any_eq_true, List.mem_range] at h
      obtain ⟨block, hmem, zz, hz, yy, hy, xx, hx, hcan⟩ := h
      rw [List.mem_filterMap] at hmem
      obtain ⟨a, ha, hae⟩ := hmem
      refine ⟨block, ?_, xx, yy, zz, hx, hy, hz, hcan⟩
      have : a = some block := hae
      exact this ▸ ha
    · rintro (hall | ⟨block, hmem, xx, yy, zz, hx, hy, hz, hcan⟩)
      · exact absurd (List.filterMap_eq_nil_iff.mpr (by simpa using hall)) he
      · simp only [Bool.not_eq_false', List.any_eq_true, List.mem_range]
        exact ⟨block, List.mem_filterMap.mpr ⟨some block, hmem, rfl⟩,
          zz, hz, yy, hy, xx, hx, hcan⟩

/-- C5: an accepted placement empties the consumed slot and leaves the other
slots untouched; if all slots are then empty, all three slots are refilled
from the generator within the same transition and the active slot becomes 0;
otherwise the slots stay as consumed and the new active slot is the first
non-empty slot by index. -/
theorem slot_lifecycle (gen : Nat → A3) (s : GameState) (x y z : Int)
    (i : Int) (block : A3) (hgo : s.gameOver = false)
    (hact : s.activeBlock = some i)
    (hslot : getSlot s.nextBlocks i = some block)
    (hcan : canPlaceBlockAt s.board block x y z = true) :
    (s.nextBlocks.set i.toNat none).getD i.toNat none = none ∧
    (∀ j, j ≠ i.toNat →
      (s.nextBlocks.set i.toNat none).getD j none = s.nextBlocks.getD j none) ∧
    (((s.nextBlocks.set i.toNat none).all fun b => b.isNone) = true →
      (getNextGameState gen s x y z).nextBlocks
          = [some (gen 0), some (gen 1), some (gen 2)] ∧
      (getNextGameState gen s x y z).activeBlock = some 0) ∧
    (((s.nextBlocks.set i.toNat none).all fun b => b.isNone) = false →
      (getNextGameState gen s x y z).nextBlocks
          = s.nextBlocks.set i.toNat none ∧
      ∃ n : Nat, (getNextGameState gen s x y z).activeBlock = some (n : Int) ∧
        ((s.nextBlocks.set i.toNat none).getD n none).isSome = true ∧
        ∀ k < n, (s.nextBlocks.set i.toNat none).getD k none = none) := by
  obtain ⟨hi0, hilt⟩ := getSlot_lt_length s.nextBlocks i block hslot
  rw [getNextGameState_accepted gen s x y z i block hgo hact hslot hcan]
  refine ⟨?_, ?_, ?_, ?_⟩
  · rw [getD_set, if_pos ⟨rfl, hilt⟩]
  · intro j hj
    rw [getD_set, if_neg (fun hh => hj hh.1.symm)]
  · intro hall
    rw [acceptedState_nextBlocks, acceptedState_activeBlock, if_pos hall]
    exact ⟨rfl, rfl⟩
  · intro hall
    rw [acceptedState_nextBlocks, acceptedState_activeBlock,
      if_neg (by simp [hall])]
    obtain ⟨n, h1, h2, h3⟩ := jsFindIndex_spec _ hall
    exact ⟨rfl, n, by rw [h1], h2, h3⟩

/-- C5 witness: consuming slot 0 of a state whose slot 2 still holds a piece
leaves slot 2 untouched and selects it as the new active slot. -/
theorem slot_lifecycle_witness :
    (stateTwoSlots.nextBlocks.set (0 : Int).toNat none).getD (0 : Int).toNat none
        = none ∧
    (∀ j, j ≠ (0 : Int).toNat →
      (stateTwoSlots.nextBlocks.set (0 : Int).toNat none).getD j none
          = stateTwoSlots.nextBlocks.getD j none) ∧
    (((stateTwoSlots.nextBlocks.set (0 : Int).toNat none).all fun b => b.isNone)
        = true →
      (getNextGameState genBar stateTwoSlots 0 0 0).nextBlocks
          = [some (genBar 0), some (genBar 1), some (genBar 2)] ∧
      (getNextGameState genBar stateTwoSlots 0 0 0).activeBlock = some 0) ∧
    (((stateTwoSlots.nextBlocks.set (0 : Int).toNat none).all fun b => b.isNone)
        = false →
      (getNextGameState genBar stateTwoSlots 0 0 0).nextBlocks
          = stateTwoSlots.nextBlocks.set (0 : Int).toNat none ∧
      ∃ n : Nat,
        (getNextGameState genBar stateTwoSlots 0 0 0).activeBlock = some (n : Int) ∧
        ((stateTwoSlots.nextBlocks.set (0 : Int).toNat none).getD n none).isSome
            = true ∧
        ∀ k < n,
          (stateTwoSlots.nextBlocks.set (0 : Int).toNat none).getD k none = none) :=
  slot_lifecycle genBar stateTwoSlots 0 0 0 0 tBlock rfl rfl (by decide) (by decide)

/-- C6 (code evaluation at the failing input): one quarter-turn about Z maps
the L block to the same-extent block with the X and Z indices reversed in
place — the extents are not transposed, contradicting both the code comment
`X becomes Y, Y becomes -X` and the specified swap of X and Y. -/
theorem rotateBlock_z_quarter_turn_eval :
    rotateBlock lBlock ⟨0, 0, 1⟩
        = [[[true, true, true], [false, false, true], [false, false, true]]] ∧
    calculateBlockDimensions (rotateBlock lBlock ⟨0, 0, 1⟩)
        = calculateBlockDimensions lBlock ∧
    (calculateBlockDimensions lBlock).yHeight
        ≠ (calculateBlockDimensions lBlock).zDepth := by
  decide

/-- C7 counterexample: the claim assigns `xWidth` the length of the outer
array; on `[[[true, true]]]` the code returns `xWidth = 2` (the innermost
length) while the outer array has length 1. -/
theorem calculateBlockDimensions_cex :
    ¬ ((calculateBlockDimensions [[[true, true]]]).xWidth
        = ([[[true, true]]] : A3).length) := by
  decide

/-- C7 (amended): `calculateBlockDimensions` returns `zDepth` = length of
the outer array, `yHeight` = length of its first sub-array, `xWidth` =
length of that sub-array's first sub-array, with missing levels giving 0;
it is total, with no failure mode. -/
theorem calculateBlockDimensions_fields (block : A3) :
    (calculateBlockDimensions block).zDepth = block.length ∧
    (calculateBlockDimensions block).yHeight = (block.head?.getD []).length ∧
    (calculateBlockDimensions block).xWidth
        = ((block.head?.getD []).head?.getD []).length := by
  refine ⟨rfl, ?_, ?_⟩
  · cases block <;> rfl
  · cases block with
    | nil => rfl
    | cons hd t => cases hd <;> rfl

/-- All 4 catalog shapes times all 64 rotation triples preserve the occupied
cell count. -/
theorem rotate_preserves_cellCount_all :
    ∀ blk ∈ possibleBlocks, ∀ rx ry rz : Fin 4,
      cellCount (rotateBlock blk ⟨rx.val, ry.val, rz.val⟩) = cellCount blk := by
  decide

/-- The shape selected by `getRandomBlock` is a catalog member whenever the
random source lies in `[0, 1)`. -/
theorem getRandomBlock_selects (r : ℚ) (rot : Rotation) (hr0 : 0 ≤ r)
    (hr1 : r < 1) :
    0 ≤ Int.floor (r * (possibleBlocks.length : ℚ)) ∧
    Int.floor (r * (possibleBlocks.length : ℚ)) < (possibleBlocks.length : Int) ∧
    ∃ blk, blk ∈ possibleBlocks ∧
      getRandomBlock r rot = some (rotateBlock blk rot) := by
  have hq0 : (0 : ℚ) ≤ r * (possibleBlocks.length : ℚ) := by positivity
  have h0 : (0 : Int) ≤ Int.floor (r * (possibleBlocks.length : ℚ)) :=
    Int.floor_nonneg.mpr hq0
  have h4 : Int.floor (r * (possibleBlocks.length : ℚ)) < (possibleBlocks.length : Int) := by
    rw [Int.floor_lt]
    have hpos : (0 : ℚ) < (possibleBlocks.length : ℚ) := by norm_num [possibleBlocks]
    have := mul_lt_mul_of_pos_right hr1 hpos
    rw [one_mul] at this
    exact_mod_cast this
  refine ⟨h0, h4, ?_⟩
  unfold getRandomBlock jsIndex
  rw [if_pos h0]
  have hlt : (Int.floor (r * (possibleBlocks.length : ℚ))).toNat < possibleBlocks.length := by
    omega
  rw [List.get?_eq_getElem?, List.getElem?_eq_getElem hlt]
  exact ⟨_, List.getElem_mem hlt, rfl⟩

/-- C8: every rotation of every catalog shape has the same occupied-cell
count as the original, so every block returned by `getRandomBlock` has the
cell count of some catalog shape. -/
theorem rotation_preserves_cellCount (blk : A3) (hblk : blk ∈ possibleBlocks)
    (rx ry rz : Fin 4) (r : ℚ) (hr0 : 0 ≤ r) (hr1 : r < 1) (b : A3)
    (hb : getRandomBlock r ⟨rx.val, ry.val, rz.val⟩ = some b) :
    cellCount (rotateBlock blk ⟨rx.val, ry.val, rz.val⟩) = cellCount blk ∧
    cellCount b ∈ possibleBlocks.map cellCount := by
  refine ⟨rotate_preserves_cellCount_all blk hblk rx ry rz, ?_⟩
  obtain ⟨-, -, blk2, hblk2, he⟩ := getRandomBlock_selects r ⟨rx.val, ry.val, rz.val⟩ hr0 hr1
  rw [he] at hb
  obtain rfl : rotateBlock blk2 ⟨rx.val, ry.val, rz.val⟩ = b := by
    simpa using hb
  rw [rotate_preserves_cellCount_all blk2 hblk2 rx ry rz]
  exact List.mem_map_of_mem cellCount hblk2

/-- C8 witness: a quarter-turn about each axis of the 2x3x2 prism selected
at random source 0. -/
theorem rotation_preserves_cellCount_witness :
    cellCount (rotateBlock prismBlock ⟨(1 : Fin 4).val, (1 : Fin 4).val, (1 : Fin 4).val⟩)
        = cellCount prismBlock ∧
    cellCount (rotateBlock prismBlock ⟨(1 : Fin 4).val, (1 : Fin 4).val, (1 : Fin 4).val⟩)
        ∈ possibleBlocks.map cellCount :=
  rotation_preserves_cellCount prismBlock (by decide) 1 1 1 0 (by norm_num)
    (by norm_num) (rotateBlock prismBlock ⟨(1 : Fin 4).val, (1 : Fin 4).val, (1 : Fin 4).val⟩)
    (by simp [getRandomBlock, jsIndex, possibleBlocks])

/-- C9: every transition adds a non-negative multiple of 100 to the score;
the score never decreases; the initial score is 0; hence along any move
sequence from the initial state the score is a non-negative multiple of
100. -/
theorem score_invariant (gen : Nat → A3) (s : GameState) (x y z : Int)
    (moves : List (Int × Int × Int)) :
    (∃ k : Nat, (getNextGameState gen s x y z).score = s.score + 100 * (k : Int)) ∧
    s.score ≤ (getNextGameState gen s x y z).score ∧
    (createInitialGameState gen).score = 0 ∧
    ∃ m : Nat,
      (moves.foldl (fun st mv => getNextGameState gen st mv.1 mv.2.1 mv.2.2)
        (createInitialGameState gen)).score = 100 * (m : Int) :=
  ⟨score_delta gen s x y z, score_le gen s x y z, rfl,
    score_multiple_foldl gen moves _ ⟨0, by simp [createInitialGameState]⟩⟩

/-- C10: for any random source in `[0, 1)` the selected index lies in
`[0, 4)`, so the `No block found` branch is unreachable and `getRandomBlock`
always returns a block. -/
theorem getRandomBlock_total (r : ℚ) (hr0 : 0 ≤ r) (hr1 : r < 1)
    (rot : Rotation) :
    0 ≤ Int.floor (r * (possibleBlocks.length : ℚ)) ∧
    Int.floor (r * (possibleBlocks.length : ℚ)) < (possibleBlocks.length : Int) ∧
    ∃ b, getRandomBlock r rot = some b := by
  obtain ⟨h0, h4, blk, -, he⟩ := getRandomBlock_selects r rot hr0 hr1
  exact ⟨h0, h4, _, he⟩

/-- C10 witness: random source one half, identity rotation. -/
theorem getRandomBlock_total_witness :
    0 ≤ Int.floor ((1 / 2 : ℚ) * (possibleBlocks.length : ℚ)) ∧
    Int.floor ((1 / 2 : ℚ) * (possibleBlocks.length : ℚ)) < (possibleBlocks.length : Int) ∧
    ∃ b, getRandomBlock (1 / 2 : ℚ) ⟨0, 0, 0⟩ = some b :=
  getRandomBlock_total (1 / 2 : ℚ) (by norm_num) (by norm_num) ⟨0, 0, 0⟩

end CubeBlast



